import Mathlib

/-!
Verification of the program-tree core of the buzzer eBPF/cBPF fuzzer.

The embedding follows `pkg/ebpf/jmp_operations.go` (the `Operation` tree with
its `IMMJMPOperation`, `RegJMPOperation` and `CallOperation` variants), the
extended-ISA store encodings exercised by `st_ld_instructions_test.go`, and the
classic-ISA jump constructors exercised by the cbpf jump test.  Go pointer
mutation becomes pure state passing: every method that mutates the tree in
place returns the updated tree here.  Machine integers are `Nat`/`Int` with
explicit `% 2 ^ 32` (resp. `Int.emod`) where the Go `uint32`/`int16`
conversions wrap.  The Go slice expression that can panic out of range is
embedded as an `Option`-returning function.
-/

namespace Ebpf

/-- Modelled from the spec: the extended-ISA opcode constants from
`constants.go`/the ebpf proto, which are not under `src/` (only their users
are).  Values follow the standard eBPF opcode layout implied by §4.1 and the
in-repo test vectors.  `JmpExit` is the exit operation code. -/
def JmpExit : Nat := 0x90

/-- Modelled from the spec: the auxiliary-function call operation code
(`constants.go` is not under `src/`). -/
def JmpCALL : Nat := 0x80

/-- Modelled from the spec: the jump instruction class of the extended ISA
(`constants.go` is not under `src/`). -/
def InsClassJmp : Nat := 0x05

/-- Modelled from the spec: the placeholder value used for operand fields that
an instruction does not use (`constants.go` is not under `src/`). -/
def UnusedField : Nat := 0

/-- Modelled from the spec (§4.1, extended ISA): `encodeImmediateJmpOperation`
from `encoding_functions.go`, which is not under `src/`.  One 64-bit word:
byte 0 is the opcode (operation code or-ed with the instruction class),
byte 1 carries the destination register in its low 4 bits, bytes 2–3 the
signed 16-bit offset (here the false-branch size), bytes 4–7 the 32-bit
immediate. -/
def encodeImmediateJmpOperation (ins insClass dstReg : Nat) (imm : Int)
    (offset : Int) : Nat :=
  ((ins ||| insClass) % 256) |||
    ((dstReg % 16) <<< 8) |||
    (((offset.emod (2 ^ 16)).toNat) <<< 16) |||
    (((imm.emod (2 ^ 32)).toNat) <<< 32)

/-- Modelled from the spec (§4.1, extended ISA): `encodeRegisterJmpOperation`
from `encoding_functions.go`, which is not under `src/`.  Like the immediate
form but byte 1 packs destination (low 4 bits) and source (high 4 bits)
registers and the immediate field is unused. -/
def encodeRegisterJmpOperation (ins insClass dstReg srcReg : Nat)
    (offset : Int) : Nat :=
  ((ins ||| insClass) % 256) |||
    (((dstReg % 16) ||| ((srcReg % 16) <<< 4)) <<< 8) |||
    (((offset.emod (2 ^ 16)).toNat) <<< 16)

/-- The closure stored in the `falseBranchGenerator` field of a jump node.
Go stores a `func(prog *Program) (Operation, int16)`; the only closure built
by the code under `src/` is the one installed by `GuardJump` (returning a
fresh exit operation of size 1), every other closure comes from the external
generator strategy and is modelled as an oracle index resolved by a
`GenEnv`. -/
inductive FalseGen where
  | guardExit
  | oracle (id : Nat)
deriving DecidableEq, Repr

/-- The closure stored in the `trueBranchGenerator` field of a jump node.
`progGen` is the closure installed by `GuardJump`, which asks the program's
generator strategy (`prog.Gen.GenerateNextInstruction(prog)`); other closures
are oracle indices resolved by a `GenEnv`. -/
inductive TrueGen where
  | progGen
  | oracle (id : Nat)
deriving DecidableEq, Repr

/-- The `Operation` interface of `jmp_operations.go` as a closed tree type:
`IMMJMPOperation` and `RegJMPOperation` are the two-way branching jump nodes,
`CallOperation` the one-successor auxiliary-function call.  Field order and
names follow the Go structs; absent successors are `none` (Go `nil`). -/
inductive Operation where
  | IMMJMPOperation
      (instructionNumber : Nat)
      (Instruction InsClass DstReg : Nat) (Imm : Int)
      (TrueBranchNextInstr : Option Operation)
      (trueBranchGenerator : Option TrueGen)
      (FalseBranchNextInstr : Option Operation)
      (FalseBranchSize : Int)
      (falseBranchGenerator : Option FalseGen)
  | RegJMPOperation
      (instructionNumber : Nat)
      (Instruction InsClass DstReg SrcReg : Nat)
      (TrueBranchNextInstr : Option Operation)
      (trueBranchGenerator : Option TrueGen)
      (FalseBranchNextInstr : Option Operation)
      (FalseBranchSize : Int)
      (falseBranchGenerator : Option FalseGen)
  | CallOperation
      (instructionNumber : Nat)
      (fnNumber : Int)
      (nextInstr : Option Operation)

/-- Oracle for the externally supplied generator closures: `progGen` is the
operation the program's generator strategy returns, the indexed fields resolve
the oracle closures. -/
structure GenEnv where
  progGen : Operation
  trueOracle : Nat → Operation
  falseOracle : Nat → Operation × Int

/-- `ExitOperation` from `jmp_operations.go`: an `IMMJMPOperation` whose
instruction is `JmpExit` in class `InsClassJmp` with unused immediate and no
successors or generators. -/
def ExitOperation : Operation :=
  .IMMJMPOperation 0 JmpExit InsClassJmp 0 (UnusedField : Nat) none none none
    0 none

/-- `FalseGen.run`: the meaning of a stored false-branch closure.  The
`GuardJump` closure returns a fresh exit operation and size 1 ("We return 1
because an Exit Operation has 1 opcode"). -/
def FalseGen.run (env : GenEnv) : FalseGen → Operation × Int
  | .guardExit => (ExitOperation, 1)
  | .oracle id => env.falseOracle id

/-- `TrueGen.run`: the meaning of a stored true-branch closure. -/
def TrueGen.run (env : GenEnv) : TrueGen → Operation
  | .progGen => env.progGen
  | .oracle id => env.trueOracle id

/-- `CallFunction` from `jmp_operations.go`: builds a `CallOperation` with the
given auxiliary-function number and no successor. -/
def CallFunction (functionValue : Int) : Operation :=
  .CallOperation 0 functionValue none

/-- `GuardJump` from `jmp_operations.go`: a two-way jump whose false-branch
generator returns an exit operation of size 1 and whose true-branch generator
asks the program's generator strategy. -/
def GuardJump (ins insClass dstReg : Nat) (imm : Int) : Operation :=
  .IMMJMPOperation 0 ins insClass dstReg imm none (some .progGen) none 0
    (some .guardExit)

/-- The Go slice expression `bc[0:size]` on the false-branch bytecode: panics
(here `none`) unless `0 ≤ size ≤ bc.length`, otherwise yields the first
`size` words. -/
def sliceFalse (bc : List Nat) (size : Int) : Option (List Nat) :=
  if 0 ≤ size ∧ size ≤ (bc.length : Int) then some (List.take size.toNat bc)
  else none

/-- `GenerateBytecode` from `jmp_operations.go` for all three variants: the
node's own encoded word, then (two-way nodes with a non-nil false successor)
the first `FalseBranchSize` words of the false successor's bytecode — the Go
slice that can panic makes the result an `Option` — then the full bytecode of
a present true successor. -/
def GenerateBytecode : Operation → Option (List Nat)
  | .IMMJMPOperation _ ins cls dst imm none _ none fsz _ =>
      some [encodeImmediateJmpOperation ins cls dst imm fsz]
  | .IMMJMPOperation _ ins cls dst imm (some t) _ none fsz _ =>
      (GenerateBytecode t).map
        (fun tbc => encodeImmediateJmpOperation ins cls dst imm fsz :: tbc)
  | .IMMJMPOperation _ ins cls dst imm none _ (some f) fsz _ =>
      (GenerateBytecode f).bind (fun fbc => (sliceFalse fbc fsz).map
        (fun fp => encodeImmediateJmpOperation ins cls dst imm fsz :: fp))
  | .IMMJMPOperation _ ins cls dst imm (some t) _ (some f) fsz _ =>
      (GenerateBytecode f).bind (fun fbc => (sliceFalse fbc fsz).bind
        (fun fp => (GenerateBytecode t).map
          (fun tbc =>
            encodeImmediateJmpOperation ins cls dst imm fsz :: (fp ++ tbc))))
  | .RegJMPOperation _ ins cls dst src none _ none fsz _ =>
      some [encodeRegisterJmpOperation ins cls dst src fsz]
  | .RegJMPOperation _ ins cls dst src (some t) _ none fsz _ =>
      (GenerateBytecode t).map
        (fun tbc => encodeRegisterJmpOperation ins cls dst src fsz :: tbc)
  | .RegJMPOperation _ ins cls dst src none _ (some f) fsz _ =>
      (GenerateBytecode f).bind (fun fbc => (sliceFalse fbc fsz).map
        (fun fp => encodeRegisterJmpOperation ins cls dst src fsz :: fp))
  | .RegJMPOperation _ ins cls dst src (some t) _ (some f) fsz _ =>
      (GenerateBytecode f).bind (fun fbc => (sliceFalse fbc fsz).bind
        (fun fp => (GenerateBytecode t).map
          (fun tbc =>
            encodeRegisterJmpOperation ins cls dst src fsz :: (fp ++ tbc))))
  | .CallOperation _ fn none =>
      some [encodeImmediateJmpOperation JmpCALL InsClassJmp UnusedField fn 0]
  | .CallOperation _ fn (some t) =>
      (GenerateBytecode t).map
        (fun tbc =>
          encodeImmediateJmpOperation JmpCALL InsClassJmp UnusedField fn 0 ::
            tbc)

/-- Bytecode contributed by an optional true-successor slot: `[]` for `nil`,
the successor's full `GenerateBytecode` otherwise.  Used to state the
flattening claims uniformly over a possibly-absent true branch. -/
def truePartBytecode : Option Operation → Option (List Nat)
  | none => some []
  | some t => GenerateBytecode t

/-- `GenerateNextInstruction` from `jmp_operations.go`: for each successor
slot, recurse into a populated slot; otherwise fire the stored generator (for
the false slot, installing both the node and its declared size; a freshly
generated node is not recursed into during the same call).  `CallOperation`
always asks the program generator when its slot is empty. -/
def GenerateNextInstruction (env : GenEnv) : Operation → Operation
  | .IMMJMPOperation n ins cls dst imm (some t) tg (some f) fsz fg =>
      .IMMJMPOperation n ins cls dst imm
        (some (GenerateNextInstruction env t)) tg
        (some (GenerateNextInstruction env f)) fsz fg
  | .IMMJMPOperation n ins cls dst imm (some t) tg none _fsz (some g) =>
      .IMMJMPOperation n ins cls dst imm
        (some (GenerateNextInstruction env t)) tg
        (some (g.run env).1) (g.run env).2 (some g)
  | .IMMJMPOperation n ins cls dst imm (some t) tg none fsz none =>
      .IMMJMPOperation n ins cls dst imm
        (some (GenerateNextInstruction env t)) tg none fsz none
  | .IMMJMPOperation n ins cls dst imm none (some tgen) (some f) fsz fg =>
      .IMMJMPOperation n ins cls dst imm
        (some (tgen.run env)) (some tgen)
        (some (GenerateNextInstruction env f)) fsz fg
  | .IMMJMPOperation n ins cls dst imm none (some tgen) none _fsz (some g) =>
      .IMMJMPOperation n ins cls dst imm
        (some (tgen.run env)) (some tgen)
        (some (g.run env).1) (g.run env).2 (some g)
  | .IMMJMPOperation n ins cls dst imm none (some tgen) none fsz none =>
      .IMMJMPOperation n ins cls dst imm
        (some (tgen.run env)) (some tgen) none fsz none
  | .IMMJMPOperation n ins cls dst imm none none (some f) fsz fg =>
      .IMMJMPOperation n ins cls dst imm none none
        (some (GenerateNextInstruction env f)) fsz fg
  | .IMMJMPOperation n ins cls dst imm none none none _fsz (some g) =>
      .IMMJMPOperation n ins cls dst imm none none
        (some (g.run env).1) (g.run env).2 (some g)
  | .IMMJMPOperation n ins cls dst imm none none none fsz none =>
      .IMMJMPOperation n ins cls dst imm none none none fsz none
  | .RegJMPOperation n ins cls dst src (some t) tg (some f) fsz fg =>
      .RegJMPOperation n ins cls dst src
        (some (GenerateNextInstruction env t)) tg
        (some (GenerateNextInstruction env f)) fsz fg
  | .RegJMPOperation n ins cls dst src (some t) tg none _fsz (some g) =>
      .RegJMPOperation n ins cls dst src
        (some (GenerateNextInstruction env t)) tg
        (some (g.run env).1) (g.run env).2 (some g)
  | .RegJMPOperation n ins cls dst src (some t) tg none fsz none =>
      .RegJMPOperation n ins cls dst src
        (some (GenerateNextInstruction env t)) tg none fsz none
  | .RegJMPOperation n ins cls dst src none (some tgen) (some f) fsz fg =>
      .RegJMPOperation n ins cls dst src
        (some (tgen.run env)) (some tgen)
        (some (GenerateNextInstruction env f)) fsz fg
  | .RegJMPOperation n ins cls dst src none (some tgen) none _fsz (some g) =>
      .RegJMPOperation n ins cls dst src
        (some (tgen.run env)) (some tgen)
        (some (g.run env).1) (g.run env).2 (some g)
  | .RegJMPOperation n ins cls dst src none (some tgen) none fsz none =>
      .RegJMPOperation n ins cls dst src
        (some (tgen.run env)) (some tgen) none fsz none
  | .RegJMPOperation n ins cls dst src none none (some f) fsz fg =>
      .RegJMPOperation n ins cls dst src none none
        (some (GenerateNextInstruction env f)) fsz fg
  | .RegJMPOperation n ins cls dst src none none none _fsz (some g) =>
      .RegJMPOperation n ins cls dst src none none
        (some (g.run env).1) (g.run env).2 (some g)
  | .RegJMPOperation n ins cls dst src none none none fsz none =>
      .RegJMPOperation n ins cls dst src none none none fsz none
  | .CallOperation n fn (some t) =>
      .CallOperation n fn (some (GenerateNextInstruction env t))
  | .CallOperation n fn none =>
      .CallOperation n fn (some env.progGen)

/-- `NumerateInstruction` from `jmp_operations.go`: records the starting
number on the node, renumbers a present false successor from `start+1`,
advances the `uint32` counter by the declared `FalseBranchSize` (Go sign
extension and wrap-around made explicit), renumbers a present true successor
from there, and returns the count `1 + FalseBranchSize (+ true count)`
(`CallOperation`: `1 (+ next count)`).  Returns the renumbered tree together
with the Go `int` return value. -/
def NumerateInstruction : Operation → Nat → Operation × Int
  | .IMMJMPOperation _ ins cls dst imm none tg none fsz fg, instrNo =>
      (.IMMJMPOperation instrNo ins cls dst imm none tg none fsz fg, 1 + fsz)
  | .IMMJMPOperation _ ins cls dst imm none tg (some f) fsz fg, instrNo =>
      (.IMMJMPOperation instrNo ins cls dst imm none tg
        (some (NumerateInstruction f ((instrNo + 1) % 2 ^ 32)).1) fsz fg,
       1 + fsz)
  | .IMMJMPOperation _ ins cls dst imm (some t) tg none fsz fg, instrNo =>
      (.IMMJMPOperation instrNo ins cls dst imm
        (some (NumerateInstruction t
          (((instrNo + 1) % 2 ^ 32 + (fsz.emod (2 ^ 32)).toNat) % 2 ^ 32)).1)
        tg none fsz fg,
       1 + fsz + (NumerateInstruction t
          (((instrNo + 1) % 2 ^ 32 + (fsz.emod (2 ^ 32)).toNat) % 2 ^ 32)).2)
  | .IMMJMPOperation _ ins cls dst imm (some t) tg (some f) fsz fg, instrNo =>
      (.IMMJMPOperation instrNo ins cls dst imm
        (some (NumerateInstruction t
          (((instrNo + 1) % 2 ^ 32 + (fsz.emod (2 ^ 32)).toNat) % 2 ^ 32)).1)
        tg (some (NumerateInstruction f ((instrNo + 1) % 2 ^ 32)).1) fsz fg,
       1 + fsz + (NumerateInstruction t
          (((instrNo + 1) % 2 ^ 32 + (fsz.emod (2 ^ 32)).toNat) % 2 ^ 32)).2)
  | .RegJMPOperation _ ins cls dst src none tg none fsz fg, instrNo =>
      (.RegJMPOperation instrNo ins cls dst src none tg none fsz fg, 1 + fsz)
  | .RegJMPOperation _ ins cls dst src none tg (some f) fsz fg, instrNo =>
      (.RegJMPOperation instrNo ins cls dst src none tg
        (some (NumerateInstruction f ((instrNo + 1) % 2 ^ 32)).1) fsz fg,
       1 + fsz)
  | .RegJMPOperation _ ins cls dst src (some t) tg none fsz fg, instrNo =>
      (.RegJMPOperation instrNo ins cls dst src
        (some (NumerateInstruction t
          (((instrNo + 1) % 2 ^ 32 + (fsz.emod (2 ^ 32)).toNat) % 2 ^ 32)).1)
        tg none fsz fg,
       1 + fsz + (NumerateInstruction t
          (((instrNo + 1) % 2 ^ 32 + (fsz.emod (2 ^ 32)).toNat) % 2 ^ 32)).2)
  | .RegJMPOperation _ ins cls dst src (some t) tg (some f) fsz fg, instrNo =>
      (.RegJMPOperation instrNo ins cls dst src
        (some (NumerateInstruction t
          (((instrNo + 1) % 2 ^ 32 + (fsz.emod (2 ^ 32)).toNat) % 2 ^ 32)).1)
        tg (some (NumerateInstruction f ((instrNo + 1) % 2 ^ 32)).1) fsz fg,
       1 + fsz + (NumerateInstruction t
          (((instrNo + 1) % 2 ^ 32 + (fsz.emod (2 ^ 32)).toNat) % 2 ^ 32)).2)
  | .CallOperation _ fn none, instrNo => (.CallOperation instrNo fn none, 1)
  | .CallOperation _ fn (some t), instrNo =>
      (.CallOperation instrNo fn
        (some (NumerateInstruction t ((instrNo + 1) % 2 ^ 32)).1),
       1 + (NumerateInstruction t ((instrNo + 1) % 2 ^ 32)).2)

/-- `SetNextInstruction` from `jmp_operations.go`: follow the chain of true
successors (`nextInstr` for calls) and attach the node at the first empty
slot. -/
def SetNextInstruction : Operation → Operation → Operation
  | .IMMJMPOperation n ins cls dst imm (some t) tg fb fsz fg, nx =>
      .IMMJMPOperation n ins cls dst imm (some (SetNextInstruction t nx)) tg
        fb fsz fg
  | .IMMJMPOperation n ins cls dst imm none tg fb fsz fg, nx =>
      .IMMJMPOperation n ins cls dst imm (some nx) tg fb fsz fg
  | .RegJMPOperation n ins cls dst src (some t) tg fb fsz fg, nx =>
      .RegJMPOperation n ins cls dst src (some (SetNextInstruction t nx)) tg
        fb fsz fg
  | .RegJMPOperation n ins cls dst src none tg fb fsz fg, nx =>
      .RegJMPOperation n ins cls dst src (some nx) tg fb fsz fg
  | .CallOperation n fn (some t), nx =>
      .CallOperation n fn (some (SetNextInstruction t nx))
  | .CallOperation n fn none, nx => .CallOperation n fn (some nx)

/-- The true-successor slot of a node (`nextInstr` for a call). -/
def trueBranchOf : Operation → Option Operation
  | .IMMJMPOperation _ _ _ _ _ tb _ _ _ _ => tb
  | .RegJMPOperation _ _ _ _ _ tb _ _ _ _ => tb
  | .CallOperation _ _ nx => nx

/-- The false-successor slot of a node (`none` for a call). -/
def falseBranchOf : Operation → Option Operation
  | .IMMJMPOperation _ _ _ _ _ _ _ fb _ _ => fb
  | .RegJMPOperation _ _ _ _ _ _ _ fb _ _ => fb
  | .CallOperation _ _ _ => none

/-- The declared `FalseBranchSize` of a node (`0` for a call). -/
def falseBranchSizeOf : Operation → Int
  | .IMMJMPOperation _ _ _ _ _ _ _ _ fsz _ => fsz
  | .RegJMPOperation _ _ _ _ _ _ _ _ fsz _ => fsz
  | .CallOperation _ _ _ => 0

/-- A tree is fully built when every successor slot is either populated (by a
fully built subtree) or empty with no pending generator; an empty call slot
always pends on the program generator. -/
def fullyBuilt : Operation → Bool
  | .IMMJMPOperation _ _ _ _ _ none tg none _ fg =>
      tg.isNone && fg.isNone
  | .IMMJMPOperation _ _ _ _ _ none tg (some f) _ _ =>
      tg.isNone && fullyBuilt f
  | .IMMJMPOperation _ _ _ _ _ (some t) _ none _ fg =>
      fullyBuilt t && fg.isNone
  | .IMMJMPOperation _ _ _ _ _ (some t) _ (some f) _ _ =>
      fullyBuilt t && fullyBuilt f
  | .RegJMPOperation _ _ _ _ _ none tg none _ fg =>
      tg.isNone && fg.isNone
  | .RegJMPOperation _ _ _ _ _ none tg (some f) _ _ =>
      tg.isNone && fullyBuilt f
  | .RegJMPOperation _ _ _ _ _ (some t) _ none _ fg =>
      fullyBuilt t && fg.isNone
  | .RegJMPOperation _ _ _ _ _ (some t) _ (some f) _ _ =>
      fullyBuilt t && fullyBuilt f
  | .CallOperation _ _ none => false
  | .CallOperation _ _ (some t) => fullyBuilt t

/-- Number of nodes on the chain of true successors before the first empty
true-successor slot. -/
def trueChainLen : Operation → Nat
  | .IMMJMPOperation _ _ _ _ _ (some t) _ _ _ _ => trueChainLen t + 1
  | .IMMJMPOperation _ _ _ _ _ none _ _ _ _ => 0
  | .RegJMPOperation _ _ _ _ _ (some t) _ _ _ _ => trueChainLen t + 1
  | .RegJMPOperation _ _ _ _ _ none _ _ _ _ => 0
  | .CallOperation _ _ (some t) => trueChainLen t + 1
  | .CallOperation _ _ none => 0

/-- The node reached by following `k` true-successor links. -/
def trueNth : Nat → Operation → Option Operation
  | 0, t => some t
  | k + 1, t =>
      match trueBranchOf t with
      | some u => trueNth k u
      | none => none

/-- A node with its true-successor slot emptied: everything except the true
link (false subtree, declared size, operands, generators, number). -/
def clearTrue : Operation → Operation
  | .IMMJMPOperation n ins cls dst imm _ tg fb fsz fg =>
      .IMMJMPOperation n ins cls dst imm none tg fb fsz fg
  | .RegJMPOperation n ins cls dst src _ tg fb fsz fg =>
      .RegJMPOperation n ins cls dst src none tg fb fsz fg
  | .CallOperation n fn _ => .CallOperation n fn none

/-- Modelled from the spec: the extended-ISA load/store opcode sub-field
constants (`constants.go`/the ebpf proto are not under `src/`); the values are
pinned by the encodings `st_ld_instructions_test.go` expects
(`0x7b = MEM ||| DW ||| Stx`, `0x7a = MEM ||| DW ||| St`, ...). -/
def InsClassSt : Nat := 0x02

/-- Modelled from the spec: the register-source store instruction class (see
`InsClassSt`). -/
def InsClassStx : Nat := 0x03

/-- Modelled from the spec: the MEM addressing mode bits of the extended-ISA
load/store opcode (see `InsClassSt`). -/
def StLdModeMEM : Nat := 0x60

/-- Modelled from the spec: the double-word size bits of the extended-ISA
load/store opcode (see `InsClassSt`). -/
def StLdSizeDW : Nat := 0x18

/-- Modelled from the spec: register `R0` of the extended ISA. -/
def R0 : Nat := 0

/-- Modelled from the spec: register `R9` of the extended ISA. -/
def R9 : Nat := 9

/-- The source operand of a store: a register or a 32-bit immediate (Go
overloads `StDW` over both via generics). -/
inductive StSrc where
  | reg (r : Nat)
  | imm (v : Int)
deriving DecidableEq, Repr

/-- The semantic fields of one extended-ISA memory instruction, as carried by
the proto `Instruction` with a `MemOpcode` (mode, size, class) plus operand
fields. -/
structure MemInstruction where
  Mode : Nat
  Size : Nat
  InstructionClass : Nat
  DstReg : Nat
  SrcReg : Nat
  Offset : Int
  Immediate : Int
deriving DecidableEq, Repr

/-- Modelled from the spec (§4.2 load/store and the test's expectations):
`StDW` from `st_ld_instructions.go`, which is not under `src/`.  A MEM-mode
double-word store; a register source selects class `Stx` with that source
register and immediate `0`, an immediate source selects class `St` with the
immediate and an unused source register. -/
def StDW (dstReg : Nat) (src : StSrc) (offset : Int) : MemInstruction :=
  match src with
  | .reg r =>
      { Mode := StLdModeMEM, Size := StLdSizeDW, InstructionClass := InsClassStx
        DstReg := dstReg, SrcReg := r, Offset := offset, Immediate := 0 }
  | .imm v =>
      { Mode := StLdModeMEM, Size := StLdSizeDW, InstructionClass := InsClassSt
        DstReg := dstReg, SrcReg := UnusedField, Offset := offset,
        Immediate := v }

/-- A fixed generator-strategy oracle used to instantiate universally
quantified environments in concrete evaluations: the program generator always
returns a fresh exit operation. -/
def testEnv : GenEnv :=
  ⟨ExitOperation, fun _ => ExitOperation, fun _ => (ExitOperation, 1)⟩

/-- A concrete two-way jump whose false branch is a single exit of declared
size 1; its own bytecode is two words long. -/
def sampleTwoWay : Operation :=
  .IMMJMPOperation 0 0x15 InsClassJmp 0 0 none none (some ExitOperation) 1 none

/-- A concrete call node whose true chain has one populated link. -/
def sampleTail : Operation := .CallOperation 0 7 (some sampleTwoWay)

/-- Modelled from the spec (§4.1, extended ISA): `encodeInstruction` from
`instruction_helpers_test.go`/`encoding_functions.go`, which are not under
`src/`, restricted to the single-word memory instructions the store claims
need (the two-word map-load-by-descriptor form is not involved here).  One
64-bit word: byte 0 = mode ||| size ||| class, byte 1 packs destination (low
4 bits) and source (high 4 bits) registers, bytes 2–3 the signed 16-bit
offset, bytes 4–7 the 32-bit immediate. -/
def encodeInstruction (i : MemInstruction) : List Nat :=
  [ ((i.Mode ||| i.Size ||| i.InstructionClass) % 256) |||
      (((i.DstReg % 16) ||| ((i.SrcReg % 16) <<< 4)) <<< 8) |||
      (((i.Offset.emod (2 ^ 16)).toNat) <<< 16) |||
      (((i.Immediate.emod (2 ^ 32)).toNat) <<< 32) ]

end Ebpf

namespace Cbpf

/-- Modelled from the spec: the classic-ISA constants from the cbpf proto,
which is not under `src/` (only its jump test is).  Values follow the
word-oriented ISA opcode layout of §4.1: instruction class in bits 0–2,
source-operand flag in bit 3, operation code in bits 4–7. -/
def InsClassJmp : Nat := 0x05

/-- Modelled from the spec: the immediate source-operand flag value of the
classic ISA (see `InsClassJmp`). -/
def SrcImmediate : Nat := 0x00

/-- Modelled from the spec: the register source-operand flag value of the
classic ISA (see `InsClassJmp`). -/
def SrcRegSrc : Nat := 0x08

/-- Modelled from the spec: the classic-ISA jump operation codes (see
`InsClassJmp`); `JmpJEQ` is jump-if-equal. -/
def JmpJEQ : Nat := 0x10

/-- Modelled from the spec: the classic-ISA jump-if-greater-than operation
code (see `InsClassJmp`). -/
def JmpJGT : Nat := 0x20

/-- Modelled from the spec: the classic-ISA jump-if-greater-or-equal operation
code (see `InsClassJmp`). -/
def JmpJGE : Nat := 0x30

/-- Modelled from the spec: the classic-ISA jump-if-bits-set operation code
(see `InsClassJmp`). -/
def JmpJSET : Nat := 0x40

/-- Modelled from the spec: the numeric identifier of the index register `X`
of the classic ISA (cbpf proto, not under `src/`). -/
def X : Nat := 0x01

/-- One classic-ISA instruction as carried by the cbpf proto: packed opcode,
jump-true and jump-false displacement bytes, and the comparand `K`. -/
structure CbpfInstruction where
  Opcode : Nat
  Jt : Int
  Jf : Int
  K : Int
deriving DecidableEq, Repr

/-- The comparison source operand of a classic-ISA jump: the register `X` or
a 32-bit immediate (Go overloads the constructors over both via generics). -/
inductive JmpSrc where
  | reg (r : Nat)
  | imm (v : Int)
deriving DecidableEq, Repr

/-- Modelled from the spec (§4.1 word-oriented ISA and §8): the shared
classic-ISA jump constructor behind `JmpEQ`/`JmpGT`/`JmpGE`/`JmpSET` from the
cbpf package, which is not under `src/`.  A register comparison operand sets
the register source flag and stores the register's numeric identifier in `K`;
an immediate operand sets the immediate source flag and stores the immediate
in `K`. -/
def newJmpInstruction (oc : Nat) (jt jf : Int) (src : JmpSrc) :
    CbpfInstruction :=
  match src with
  | .reg r => { Opcode := oc ||| SrcRegSrc ||| InsClassJmp, Jt := jt, Jf := jf
                K := (r : Int) }
  | .imm v => { Opcode := oc ||| SrcImmediate ||| InsClassJmp, Jt := jt
                Jf := jf, K := v }

/-- Modelled from the spec: the `JmpEQ` constructor of the classic ISA. -/
def JmpEQ (jt jf : Int) (src : JmpSrc) : CbpfInstruction :=
  newJmpInstruction JmpJEQ jt jf src

/-- Modelled from the spec: the `JmpGT` constructor of the classic ISA. -/
def JmpGT (jt jf : Int) (src : JmpSrc) : CbpfInstruction :=
  newJmpInstruction JmpJGT jt jf src

/-- Modelled from the spec: the `JmpGE` constructor of the classic ISA. -/
def JmpGE (jt jf : Int) (src : JmpSrc) : CbpfInstruction :=
  newJmpInstruction JmpJGE jt jf src

/-- Modelled from the spec: the `JmpSET` constructor of the classic ISA. -/
def JmpSET (jt jf : Int) (src : JmpSrc) : CbpfInstruction :=
  newJmpInstruction JmpJSET jt jf src

end Cbpf

namespace Ebpf

/-- Claim C1: for every two-way jump node (`IMMJMPOperation` or
`RegJMPOperation`) with a non-nil false successor, `GenerateBytecode` returns
the node's own encoded word, followed by exactly the first `FalseBranchSize`
words of the false successor's full `GenerateBytecode` output (even when that
output is longer), followed, if a true successor is present, by the true
successor's complete `GenerateBytecode` output appended unconditionally. -/
theorem generateBytecode_twoWayJmp_truncates
    (n ins cls dst src : Nat) (imm : Int)
    (tb : Option Operation) (tg : Option TrueGen)
    (f : Operation) (fsz : Int) (fg : Option FalseGen)
    (fbc tbc : List Nat)
    (hf : GenerateBytecode f = some fbc)
    (hsz : 0 ≤ fsz) (hlen : fsz ≤ (fbc.length : Int))
    (ht : truePartBytecode tb = some tbc) :
    GenerateBytecode
        (.IMMJMPOperation n ins cls dst imm tb tg (some f) fsz fg) =
      some (encodeImmediateJmpOperation ins cls dst imm fsz ::
        (List.take fsz.toNat fbc ++ tbc)) ∧
    GenerateBytecode
        (.RegJMPOperation n ins cls dst src tb tg (some f) fsz fg) =
      some (encodeRegisterJmpOperation ins cls dst src fsz ::
        (List.take fsz.toNat fbc ++ tbc)) := by
  cases tb with
  | none =>
      simp only [truePartBytecode, Option.some.injEq] at ht
      subst ht
      refine ⟨?_, ?_⟩ <;> simp [GenerateBytecode, hf, sliceFalse, hsz, hlen]
  | some t =>
      simp only [truePartBytecode] at ht
      refine ⟨?_, ?_⟩ <;>
        simp [GenerateBytecode, hf, ht, sliceFalse, hsz, hlen]

/-- Claim C1, witness: a two-way jump whose false successor itself produces
two words but whose declared size is 1 keeps only the first word of it,
followed by the full exit bytecode of the true branch. -/
theorem generateBytecode_twoWayJmp_truncates_witness :
    GenerateBytecode (.IMMJMPOperation 0 0x15 InsClassJmp 0 0
        (some ExitOperation) none (some sampleTwoWay) 1 none) =
      some (encodeImmediateJmpOperation 0x15 InsClassJmp 0 0 1 ::
        (List.take (1 : Int).toNat [0x10015, 0x95] ++ [0x95])) :=
  (generateBytecode_twoWayJmp_truncates 0 0x15 InsClassJmp 0 0 0
    (some ExitOperation) none sampleTwoWay 1 none [0x10015, 0x95] [0x95]
    (by decide) (by decide) (by decide) (by decide)).1

/-- Claim C2, counterexample: the immediate-operand double-word store of 1337
at offset -8 into register 9 does not encode to the two words
`{0x539, 0xfff8097a}`; the in-repo test expects the single word
`0x539fff8097a`. -/
theorem stDW_imm_single_word_counterexample :
    encodeInstruction (StDW R9 (.imm 1337) (-8)) ≠ [0x539, 0xfff8097a] := by
  decide

/-- Claim C2 (amended): the register double-word store of register 9 from
register 0 at offset -8 encodes to the single word `0xfff8097b`, and the
corresponding immediate-operand store of 1337 encodes to the single 64-bit
word `0x539fff8097a` (immediate `0x539` in bits 32-63, `0xfff8097a` in bits
0-31), compared against those literal hexadecimal values. -/
theorem stDW_encoding_amended :
    encodeInstruction (StDW R9 (.reg R0) (-8)) = [0xfff8097b] ∧
    encodeInstruction (StDW R9 (.imm 1337) (-8)) = [0x539fff8097a] := by
  decide

/-- Claim C3: after `GenerateNextInstruction` runs on a `GuardJump`, the false
successor is a single exit operation with declared `FalseBranchSize` 1, so the
false-branch portion of the node's bytecode is exactly one word regardless of
what the true branch expands into. -/
theorem guardJump_falseBranch_one_word
    (env : GenEnv) (ins insClass dstReg : Nat) (imm : Int) (tbc : List Nat)
    (ht : GenerateBytecode env.progGen = some tbc) :
    falseBranchOf
        (GenerateNextInstruction env (GuardJump ins insClass dstReg imm)) =
      some ExitOperation ∧
    falseBranchSizeOf
        (GenerateNextInstruction env (GuardJump ins insClass dstReg imm)) =
      1 ∧
    GenerateBytecode
        (GenerateNextInstruction env (GuardJump ins insClass dstReg imm)) =
      some (encodeImmediateJmpOperation ins insClass dstReg imm 1 ::
        encodeImmediateJmpOperation JmpExit InsClassJmp 0 0 0 :: tbc) := by
  refine ⟨?_, ?_, ?_⟩ <;>
    simp [GuardJump, GenerateNextInstruction, TrueGen.run, FalseGen.run,
      falseBranchOf, falseBranchSizeOf, GenerateBytecode, ExitOperation,
      UnusedField, ht, sliceFalse]

/-- Claim C3, witness: the guard expanded under the fixed test oracle, whose
program generator returns an exit operation. -/
theorem guardJump_falseBranch_one_word_witness :
    falseBranchOf
        (GenerateNextInstruction testEnv (GuardJump 0x15 InsClassJmp 0 0)) =
      some ExitOperation ∧
    falseBranchSizeOf
        (GenerateNextInstruction testEnv (GuardJump 0x15 InsClassJmp 0 0)) =
      1 ∧
    GenerateBytecode
        (GenerateNextInstruction testEnv (GuardJump 0x15 InsClassJmp 0 0)) =
      some (encodeImmediateJmpOperation 0x15 InsClassJmp 0 0 1 ::
        encodeImmediateJmpOperation JmpExit InsClassJmp 0 0 0 :: [0x95]) :=
  guardJump_falseBranch_one_word testEnv 0x15 InsClassJmp 0 0 [0x95]
    (by decide)

/-- Claim C9, counterexample: terminal attachment does give an exit node a
successor — `SetNextInstruction` on `ExitOperation` fills its true slot. -/
theorem exitOperation_attach_counterexample :
    trueBranchOf (SetNextInstruction ExitOperation (CallFunction 1)) =
      some (CallFunction 1) := rfl

/-- Claim C9 (amended): an exit operation as constructed has no successors and
its `GenerateBytecode` returns exactly one 64-bit word; expansion
(`GenerateNextInstruction`) never gives it a successor, but terminal
attachment (`SetNextInstruction`) does attach the given node as its true
successor. -/
theorem exitOperation_spec_amended :
    GenerateBytecode ExitOperation =
      some [encodeImmediateJmpOperation JmpExit InsClassJmp 0 0 0] ∧
    (∀ env : GenEnv,
      GenerateNextInstruction env ExitOperation = ExitOperation) ∧
    (∀ nx : Operation, SetNextInstruction ExitOperation nx =
      .IMMJMPOperation 0 JmpExit InsClassJmp 0 0 (some nx) none none 0 none) :=
  ⟨rfl, fun _ => rfl, fun _ => rfl⟩

/-- Claim C10: with a non-nil false successor whose bytecode is `fbc`, the
bytecode of a two-way jump node is defined exactly when
`0 ≤ FalseBranchSize ≤ fbc.length`; outside that range the Go slice of the
false-branch bytecode is out of range and the call fails (panics) instead of
truncating or padding. -/
theorem generateBytecode_false_slice_bounds
    (n ins cls dst src : Nat) (imm : Int)
    (tb : Option Operation) (tg : Option TrueGen)
    (f : Operation) (fsz : Int) (fg : Option FalseGen)
    (fbc tbc : List Nat)
    (hf : GenerateBytecode f = some fbc)
    (ht : truePartBytecode tb = some tbc) :
    (GenerateBytecode
        (.IMMJMPOperation n ins cls dst imm tb tg (some f) fsz fg) = none ↔
      ¬(0 ≤ fsz ∧ fsz ≤ (fbc.length : Int))) ∧
    (GenerateBytecode
        (.RegJMPOperation n ins cls dst src tb tg (some f) fsz fg) = none ↔
      ¬(0 ≤ fsz ∧ fsz ≤ (fbc.length : Int))) := by
  cases tb with
  | none =>
      simp only [truePartBytecode, Option.some.injEq] at ht
      by_cases h : 0 ≤ fsz ∧ fsz ≤ (fbc.length : Int) <;>
        refine ⟨?_, ?_⟩ <;> simp [GenerateBytecode, hf, sliceFalse, h]
  | some t =>
      simp only [truePartBytecode] at ht
      by_cases h : 0 ≤ fsz ∧ fsz ≤ (fbc.length : Int) <;>
        refine ⟨?_, ?_⟩ <;> simp [GenerateBytecode, hf, ht, sliceFalse, h]

/-- Claim C10, witness: declared size 2 over a one-word false branch makes
`GenerateBytecode` fail. -/
theorem generateBytecode_false_slice_bounds_witness :
    GenerateBytecode (.IMMJMPOperation 0 0x15 InsClassJmp 0 0 none none
        (some ExitOperation) 2 none) = none :=
  (generateBytecode_false_slice_bounds 0 0x15 InsClassJmp 0 0 0 none none
    ExitOperation 2 none [0x95] [] (by decide) (by decide)).1.mpr (by decide)

end Ebpf

namespace Cbpf

/-- Claim C8: for each conditional classic-ISA jump constructor (`JmpEQ`,
`JmpGT`, `JmpGE`, `JmpSET`), a register operand sets the source-operand bit
(bit 3) to register source with comparand `K` equal to `X`'s numeric register
identifier, an immediate operand sets it to immediate source with `K` equal to
the immediate, and in both cases the opcode's low 3 bits are the jump
instruction class and its high 4 bits the constructor's operation code. -/
theorem jmp_constructors_encoding (jt jf v : Int) :
    ((JmpEQ jt jf (.reg X)).Opcode &&& 0x07 = InsClassJmp ∧
     (JmpEQ jt jf (.reg X)).Opcode &&& 0x08 = SrcRegSrc ∧
     (JmpEQ jt jf (.reg X)).Opcode &&& 0xf0 = JmpJEQ ∧
     (JmpEQ jt jf (.reg X)).K = (X : Int)) ∧
    ((JmpEQ jt jf (.imm v)).Opcode &&& 0x07 = InsClassJmp ∧
     (JmpEQ jt jf (.imm v)).Opcode &&& 0x08 = SrcImmediate ∧
     (JmpEQ jt jf (.imm v)).Opcode &&& 0xf0 = JmpJEQ ∧
     (JmpEQ jt jf (.imm v)).K = v) ∧
    ((JmpGT jt jf (.reg X)).Opcode &&& 0x07 = InsClassJmp ∧
     (JmpGT jt jf (.reg X)).Opcode &&& 0x08 = SrcRegSrc ∧
     (JmpGT jt jf (.reg X)).Opcode &&& 0xf0 = JmpJGT ∧
     (JmpGT jt jf (.reg X)).K = (X : Int)) ∧
    ((JmpGT jt jf (.imm v)).Opcode &&& 0x07 = InsClassJmp ∧
     (JmpGT jt jf (.imm v)).Opcode &&& 0x08 = SrcImmediate ∧
     (JmpGT jt jf (.imm v)).Opcode &&& 0xf0 = JmpJGT ∧
     (JmpGT jt jf (.imm v)).K = v) ∧
    ((JmpGE jt jf (.reg X)).Opcode &&& 0x07 = InsClassJmp ∧
     (JmpGE jt jf (.reg X)).Opcode &&& 0x08 = SrcRegSrc ∧
     (JmpGE jt jf (.reg X)).Opcode &&& 0xf0 = JmpJGE ∧
     (JmpGE jt jf (.reg X)).K = (X : Int)) ∧
    ((JmpGE jt jf (.imm v)).Opcode &&& 0x07 = InsClassJmp ∧
     (JmpGE jt jf (.imm v)).Opcode &&& 0x08 = SrcImmediate ∧
     (JmpGE jt jf (.imm v)).Opcode &&& 0xf0 = JmpJGE ∧
     (JmpGE jt jf (.imm v)).K = v) ∧
    ((JmpSET jt jf (.reg X)).Opcode &&& 0x07 = InsClassJmp ∧
     (JmpSET jt jf (.reg X)).Opcode &&& 0x08 = SrcRegSrc ∧
     (JmpSET jt jf (.reg X)).Opcode &&& 0xf0 = JmpJSET ∧
     (JmpSET jt jf (.reg X)).K = (X : Int)) ∧
    ((JmpSET jt jf (.imm v)).Opcode &&& 0x07 = InsClassJmp ∧
     (JmpSET jt jf (.imm v)).Opcode &&& 0x08 = SrcImmediate ∧
     (JmpSET jt jf (.imm v)).Opcode &&& 0xf0 = JmpJSET ∧
     (JmpSET jt jf (.imm v)).K = v) := by
  refine ⟨⟨?_, ?_, ?_, ?_⟩, ⟨?_, ?_, ?_, ?_⟩, ⟨?_, ?_, ?_, ?_⟩,
    ⟨?_, ?_, ?_, ?_⟩, ⟨?_, ?_, ?_, ?_⟩, ⟨?_, ?_, ?_, ?_⟩,
    ⟨?_, ?_, ?_, ?_⟩, ⟨?_, ?_, ?_, ?_⟩⟩ <;>
    first
      | rfl
      | decide
      | (simp only [JmpEQ, JmpGT, JmpGE, JmpSET, newJmpInstruction]; decide)

end Cbpf

namespace Ebpf

/-- Claim C4: `NumerateInstruction start` records `start` as the node's own
number, renumbers a present false successor from `start + 1`, renumbers a
present true successor from `start + 1 + FalseBranchSize` (the declared size,
independent of the false subtree's own node count), and returns
`1 + FalseBranchSize (+ true count)`; a `CallOperation` renumbers its
successor from `start + 1` and returns `1 (+ successor count)`, so a variant
with no successors contributes exactly 1. -/
theorem numerateInstruction_characterization
    (n ins cls dst src : Nat) (imm : Int) (tb : Option Operation)
    (tg : Option TrueGen) (fb : Option Operation) (fsz : Int)
    (fg : Option FalseGen) (fn : Int) (nx : Option Operation) (start : Nat)
    (hsz : 0 ≤ fsz) (hno : start + 1 + fsz.toNat < 2 ^ 32) :
    (NumerateInstruction (.IMMJMPOperation n ins cls dst imm tb tg fb fsz fg)
        start =
      (.IMMJMPOperation start ins cls dst imm
          (tb.map fun u => (NumerateInstruction u (start + 1 + fsz.toNat)).1)
          tg (fb.map fun u => (NumerateInstruction u (start + 1)).1) fsz fg,
        match tb with
        | some u =>
            1 + fsz + (NumerateInstruction u (start + 1 + fsz.toNat)).2
        | none => 1 + fsz)) ∧
    (NumerateInstruction (.RegJMPOperation n ins cls dst src tb tg fb fsz fg)
        start =
      (.RegJMPOperation start ins cls dst src
          (tb.map fun u => (NumerateInstruction u (start + 1 + fsz.toNat)).1)
          tg (fb.map fun u => (NumerateInstruction u (start + 1)).1) fsz fg,
        match tb with
        | some u =>
            1 + fsz + (NumerateInstruction u (start + 1 + fsz.toNat)).2
        | none => 1 + fsz)) ∧
    (NumerateInstruction (.CallOperation n fn nx) start =
      (.CallOperation start fn
          (nx.map fun u => (NumerateInstruction u (start + 1)).1),
        match nx with
        | some u => 1 + (NumerateInstruction u (start + 1)).2
        | none => 1)) ∧
    (NumerateInstruction (.CallOperation n fn none) start).2 = 1 := by
  have h1 : (start + 1) % 4294967296 = start + 1 := by omega
  have hemod : fsz.emod 4294967296 = fsz :=
    Int.emod_eq_of_lt hsz (by omega)
  have h2 : (start + 1 + (fsz.emod 4294967296).toNat) % 4294967296 =
      start + 1 + fsz.toNat := by
    rw [hemod]
    omega
  refine ⟨?_, ?_, ?_, ?_⟩
  · cases tb <;> cases fb <;> simp [NumerateInstruction, h1, h2]
  · cases tb <;> cases fb <;> simp [NumerateInstruction, h1, h2]
  · cases nx <;> simp [NumerateInstruction, h1]
  · simp [NumerateInstruction]

/-- Claim C4, witness: a jump node with one-node successors and declared
false-branch size 5 numbers the false successor at 11 and the true successor
at 16 = 10 + 1 + 5, and returns 1 + 5 + 1 = 7. -/
theorem numerateInstruction_characterization_witness :
    NumerateInstruction (.IMMJMPOperation 3 0x15 InsClassJmp 0 0
        (some ExitOperation) none (some ExitOperation) 5 none) 10 =
      (.IMMJMPOperation 10 0x15 InsClassJmp 0 0
          (some ((NumerateInstruction ExitOperation (10 + 1 +
            (5 : Int).toNat)).1))
          none (some ((NumerateInstruction ExitOperation (10 + 1)).1)) 5 none,
        1 + 5 + (NumerateInstruction ExitOperation (10 + 1 +
          (5 : Int).toNat)).2) :=
  (numerateInstruction_characterization 3 0x15 InsClassJmp 0 0 0
    (some ExitOperation) none (some ExitOperation) 5 none 0 none 10
    (by decide) (by decide)).1

/-- Claim C5: renumbering is idempotent and deterministic — running
`NumerateInstruction` a second time from the same start on the renumbered
tree reproduces the same per-node numbers and the same total count. -/
theorem numerateInstruction_idempotent :
    ∀ (t : Operation) (s : Nat),
      NumerateInstruction (NumerateInstruction t s).1 s =
        NumerateInstruction t s
  | .IMMJMPOperation _ ins cls dst imm none tg none fsz fg, s => by
      simp [NumerateInstruction]
  | .IMMJMPOperation _ ins cls dst imm none tg (some f) fsz fg, s => by
      simp [NumerateInstruction,
        numerateInstruction_idempotent f ((s + 1) % 4294967296)]
  | .IMMJMPOperation _ ins cls dst imm (some t) tg none fsz fg, s => by
      simp [NumerateInstruction,
        numerateInstruction_idempotent t
          ((s + 1 + (fsz.emod 4294967296).toNat) % 4294967296)]
  | .IMMJMPOperation _ ins cls dst imm (some t) tg (some f) fsz fg, s => by
      simp [NumerateInstruction,
        numerateInstruction_idempotent f ((s + 1) % 4294967296),
        numerateInstruction_idempotent t
          ((s + 1 + (fsz.emod 4294967296).toNat) % 4294967296)]
  | .RegJMPOperation _ ins cls dst src none tg none fsz fg, s => by
      simp [NumerateInstruction]
  | .RegJMPOperation _ ins cls dst src none tg (some f) fsz fg, s => by
      simp [NumerateInstruction,
        numerateInstruction_idempotent f ((s + 1) % 4294967296)]
  | .RegJMPOperation _ ins cls dst src (some t) tg none fsz fg, s => by
      simp [NumerateInstruction,
        numerateInstruction_idempotent t
          ((s + 1 + (fsz.emod 4294967296).toNat) % 4294967296)]
  | .RegJMPOperation _ ins cls dst src (some t) tg (some f) fsz fg, s => by
      simp [NumerateInstruction,
        numerateInstruction_idempotent f ((s + 1) % 4294967296),
        numerateInstruction_idempotent t
          ((s + 1 + (fsz.emod 4294967296).toNat) % 4294967296)]
  | .CallOperation _ fn none, s => by
      simp [NumerateInstruction]
  | .CallOperation _ fn (some t), s => by
      simp [NumerateInstruction,
        numerateInstruction_idempotent t ((s + 1) % 4294967296)]

/-- Helper for claim C6: expansion is the identity on a fully built tree. -/
theorem generateNextInstruction_noop (env : GenEnv) :
    ∀ t : Operation, fullyBuilt t = true →
      GenerateNextInstruction env t = t
  | .IMMJMPOperation n ins cls dst imm (some t) tg (some f) fsz fg, h => by
      simp only [fullyBuilt, Bool.and_eq_true] at h
      simp [GenerateNextInstruction,
        generateNextInstruction_noop env t h.1,
        generateNextInstruction_noop env f h.2]
  | .IMMJMPOperation n ins cls dst imm (some t) tg none fsz fg, h => by
      simp only [fullyBuilt, Bool.and_eq_true,
        Option.isNone_iff_eq_none] at h
      obtain ⟨h1, h2⟩ := h
      subst h2
      simp [GenerateNextInstruction, generateNextInstruction_noop env t h1]
  | .IMMJMPOperation n ins cls dst imm none tg (some f) fsz fg, h => by
      simp only [fullyBuilt, Bool.and_eq_true,
        Option.isNone_iff_eq_none] at h
      obtain ⟨h1, h2⟩ := h
      subst h1
      simp [GenerateNextInstruction, generateNextInstruction_noop env f h2]
  | .IMMJMPOperation n ins cls dst imm none tg none fsz fg, h => by
      simp only [fullyBuilt, Bool.and_eq_true,
        Option.isNone_iff_eq_none] at h
      obtain ⟨h1, h2⟩ := h
      subst h1
      subst h2
      simp [GenerateNextInstruction]
  | .RegJMPOperation n ins cls dst src (some t) tg (some f) fsz fg, h => by
      simp only [fullyBuilt, Bool.and_eq_true] at h
      simp [GenerateNextInstruction,
        generateNextInstruction_noop env t h.1,
        generateNextInstruction_noop env f h.2]
  | .RegJMPOperation n ins cls dst src (some t) tg none fsz fg, h => by
      simp only [fullyBuilt, Bool.and_eq_true,
        Option.isNone_iff_eq_none] at h
      obtain ⟨h1, h2⟩ := h
      subst h2
      simp [GenerateNextInstruction, generateNextInstruction_noop env t h1]
  | .RegJMPOperation n ins cls dst src none tg (some f) fsz fg, h => by
      simp only [fullyBuilt, Bool.and_eq_true,
        Option.isNone_iff_eq_none] at h
      obtain ⟨h1, h2⟩ := h
      subst h1
      simp [GenerateNextInstruction, generateNextInstruction_noop env f h2]
  | .RegJMPOperation n ins cls dst src none tg none fsz fg, h => by
      simp only [fullyBuilt, Bool.and_eq_true,
        Option.isNone_iff_eq_none] at h
      obtain ⟨h1, h2⟩ := h
      subst h1
      subst h2
      simp [GenerateNextInstruction]
  | .CallOperation n fn (some t), h => by
      simp only [fullyBuilt] at h
      simp [GenerateNextInstruction, generateNextInstruction_noop env t h]
  | .CallOperation n fn none, h => by
      simp [fullyBuilt] at h

/-- Claim C6: `GenerateNextInstruction` never replaces a populated successor
slot — it recurses into the existing successor and keeps the declared size —
so on a fully built tree (every slot populated or without a pending
generator) it is a no-op and running it twice equals running it once. -/
theorem generateNextInstruction_idempotent_on_built (env : GenEnv) :
    (∀ t : Operation, fullyBuilt t = true →
      GenerateNextInstruction env t = t ∧
      GenerateNextInstruction env (GenerateNextInstruction env t) =
        GenerateNextInstruction env t) ∧
    (∀ t f : Operation, falseBranchOf t = some f →
      falseBranchOf (GenerateNextInstruction env t) =
        some (GenerateNextInstruction env f) ∧
      falseBranchSizeOf (GenerateNextInstruction env t) =
        falseBranchSizeOf t) ∧
    (∀ t u : Operation, trueBranchOf t = some u →
      trueBranchOf (GenerateNextInstruction env t) =
        some (GenerateNextInstruction env u)) := by
  refine ⟨?_, ?_, ?_⟩
  · intro t h
    have h0 := generateNextInstruction_noop env t h
    exact ⟨h0, by rw [h0, h0]⟩
  · intro t f hf
    cases t with
    | IMMJMPOperation n ins cls dst imm tb tg fb fsz fg =>
        simp only [falseBranchOf] at hf
        subst hf
        cases tb with
        | none =>
            cases tg <;>
              simp [GenerateNextInstruction, falseBranchOf,
                falseBranchSizeOf]
        | some t' =>
            simp [GenerateNextInstruction, falseBranchOf, falseBranchSizeOf]
    | RegJMPOperation n ins cls dst src tb tg fb fsz fg =>
        simp only [falseBranchOf] at hf
        subst hf
        cases tb with
        | none =>
            cases tg <;>
              simp [GenerateNextInstruction, falseBranchOf,
                falseBranchSizeOf]
        | some t' =>
            simp [GenerateNextInstruction, falseBranchOf, falseBranchSizeOf]
    | CallOperation n fn nx => simp [falseBranchOf] at hf
  · intro t u ht
    cases t with
    | IMMJMPOperation n ins cls dst imm tb tg fb fsz fg =>
        simp only [trueBranchOf] at ht
        subst ht
        cases fb with
        | none => cases fg <;> simp [GenerateNextInstruction, trueBranchOf]
        | some f' => simp [GenerateNextInstruction, trueBranchOf]
    | RegJMPOperation n ins cls dst src tb tg fb fsz fg =>
        simp only [trueBranchOf] at ht
        subst ht
        cases fb with
        | none => cases fg <;> simp [GenerateNextInstruction, trueBranchOf]
        | some f' => simp [GenerateNextInstruction, trueBranchOf]
    | CallOperation n fn nx =>
        simp only [trueBranchOf] at ht
        subst ht
        simp [GenerateNextInstruction, trueBranchOf]

/-- Claim C6, witness: a fully built exit node is left unchanged, and
populated slots of concrete nodes are recursed into rather than replaced. -/
theorem generateNextInstruction_idempotent_on_built_witness :
    GenerateNextInstruction testEnv ExitOperation = ExitOperation ∧
    falseBranchOf (GenerateNextInstruction testEnv sampleTwoWay) =
      some (GenerateNextInstruction testEnv ExitOperation) ∧
    trueBranchOf (GenerateNextInstruction testEnv sampleTail) =
      some (GenerateNextInstruction testEnv sampleTwoWay) :=
  ⟨((generateNextInstruction_idempotent_on_built testEnv).1 ExitOperation
      (by decide)).1,
   ((generateNextInstruction_idempotent_on_built testEnv).2.1 sampleTwoWay
      ExitOperation rfl).1,
   (generateNextInstruction_idempotent_on_built testEnv).2.2 sampleTail
      sampleTwoWay rfl⟩

end Ebpf

namespace Ebpf

/-- Unfolding `trueNth` one step along a present true link. -/
theorem trueNth_succ_some (k : Nat) {t u : Operation}
    (h : trueBranchOf t = some u) : trueNth (k + 1) t = trueNth k u := by
  simp [trueNth, h]

/-- Unfolding `trueNth` one step at an empty true slot. -/
theorem trueNth_succ_none {t : Operation} (h : trueBranchOf t = none)
    (k : Nat) : trueNth (k + 1) t = none := by
  simp [trueNth, h]

/-- Claim C7: `SetNextInstruction` attaches its argument at the first empty
true-successor slot along the chain of true successors and changes nothing
else — every node on the chain keeps its false successor, declared
`FalseBranchSize`, generators and operand fields (`clearTrue`-equality), the
attached node appears one step past the old chain end, and that slot was
empty before. -/
theorem setNextInstruction_attaches_on_true_chain :
    ∀ t nx : Operation,
      (∀ k, k ≤ trueChainLen t →
        (trueNth k (SetNextInstruction t nx)).map clearTrue =
          (trueNth k t).map clearTrue) ∧
      trueNth (trueChainLen t + 1) (SetNextInstruction t nx) = some nx ∧
      trueNth (trueChainLen t + 1) t = none
  | .IMMJMPOperation n ins cls dst imm (some u) tg fb fsz fg, nx => by
      obtain ⟨ih1, ih2, ih3⟩ := setNextInstruction_attaches_on_true_chain u nx
      have hl : trueChainLen
          (Operation.IMMJMPOperation n ins cls dst imm (some u) tg fb fsz
            fg) = trueChainLen u + 1 := rfl
      have ht : trueBranchOf
          (Operation.IMMJMPOperation n ins cls dst imm (some u) tg fb fsz
            fg) = some u := rfl
      have hr : trueBranchOf (SetNextInstruction
          (Operation.IMMJMPOperation n ins cls dst imm (some u) tg fb fsz
            fg) nx) = some (SetNextInstruction u nx) := rfl
      refine ⟨?_, ?_, ?_⟩
      · intro k hk
        cases k with
        | zero => rfl
        | succ k =>
            rw [hl] at hk
            rw [trueNth_succ_some k hr, trueNth_succ_some k ht]
            exact ih1 k (Nat.le_of_succ_le_succ hk)
      · rw [hl, trueNth_succ_some (trueChainLen u + 1) hr]
        exact ih2
      · rw [hl, trueNth_succ_some (trueChainLen u + 1) ht]
        exact ih3
  | .IMMJMPOperation n ins cls dst imm none tg fb fsz fg, nx => by
      refine ⟨?_, rfl, rfl⟩
      intro k hk
      have hk0 : k = 0 := Nat.le_zero.mp hk
      subst hk0
      rfl
  | .RegJMPOperation n ins cls dst src (some u) tg fb fsz fg, nx => by
      obtain ⟨ih1, ih2, ih3⟩ := setNextInstruction_attaches_on_true_chain u nx
      have hl : trueChainLen
          (Operation.RegJMPOperation n ins cls dst src (some u) tg fb fsz
            fg) = trueChainLen u + 1 := rfl
      have ht : trueBranchOf
          (Operation.RegJMPOperation n ins cls dst src (some u) tg fb fsz
            fg) = some u := rfl
      have hr : trueBranchOf (SetNextInstruction
          (Operation.RegJMPOperation n ins cls dst src (some u) tg fb fsz
            fg) nx) = some (SetNextInstruction u nx) := rfl
      refine ⟨?_, ?_, ?_⟩
      · intro k hk
        cases k with
        | zero => rfl
        | succ k =>
            rw [hl] at hk
            rw [trueNth_succ_some k hr, trueNth_succ_some k ht]
            exact ih1 k (Nat.le_of_succ_le_succ hk)
      · rw [hl, trueNth_succ_some (trueChainLen u + 1) hr]
        exact ih2
      · rw [hl, trueNth_succ_some (trueChainLen u + 1) ht]
        exact ih3
  | .RegJMPOperation n ins cls dst src none tg fb fsz fg, nx => by
      refine ⟨?_, rfl, rfl⟩
      intro k hk
      have hk0 : k = 0 := Nat.le_zero.mp hk
      subst hk0
      rfl
  | .CallOperation n fn (some u), nx => by
      obtain ⟨ih1, ih2, ih3⟩ := setNextInstruction_attaches_on_true_chain u nx
      have hl : trueChainLen (Operation.CallOperation n fn (some u)) =
          trueChainLen u + 1 := rfl
      have ht : trueBranchOf (Operation.CallOperation n fn (some u)) =
          some u := rfl
      have hr : trueBranchOf
          (SetNextInstruction (Operation.CallOperation n fn (some u)) nx) =
          some (SetNextInstruction u nx) := rfl
      refine ⟨?_, ?_, ?_⟩
      · intro k hk
        cases k with
        | zero => rfl
        | succ k =>
            rw [hl] at hk
            rw [trueNth_succ_some k hr, trueNth_succ_some k ht]
            exact ih1 k (Nat.le_of_succ_le_succ hk)
      · rw [hl, trueNth_succ_some (trueChainLen u + 1) hr]
        exact ih2
      · rw [hl, trueNth_succ_some (trueChainLen u + 1) ht]
        exact ih3
  | .CallOperation n fn none, nx => by
      refine ⟨?_, rfl, rfl⟩
      intro k hk
      have hk0 : k = 0 := Nat.le_zero.mp hk
      subst hk0
      rfl

/-- Claim C7, witness: attaching an exit to a call-then-jump chain of length
one leaves the chain node (with its false branch and size) unchanged and
places the exit two true-steps from the root, where the slot was empty. -/
theorem setNextInstruction_attaches_on_true_chain_witness :
    (trueNth 1 (SetNextInstruction sampleTail ExitOperation)).map clearTrue =
      (trueNth 1 sampleTail).map clearTrue ∧
    trueNth (trueChainLen sampleTail + 1)
      (SetNextInstruction sampleTail ExitOperation) = some ExitOperation :=
  ⟨(setNextInstruction_attaches_on_true_chain sampleTail ExitOperation).1 1
      (by decide),
   (setNextInstruction_attaches_on_true_chain sampleTail ExitOperation).2.1⟩

end Ebpf
